import Mathlib

/-!
Verification development for the Tajreba chunked-translation pipeline
(`src/app.py`, the Flask front-end, and `src/Tajreba_app_llm_ar-en.py`,
the Gradio front-end).  The two files share the same core: a batch sizer,
an output sanitizer, an Ollama backend client, a lock-protected
`TranslationState`, a sequential chunk-processing worker and a small
controller surface (pause / stop / export).

The embedding below is shallow: pure Python functions become Lean
functions; the worker thread becomes an explicit recursion that records
the shared state at every point where `state.lock` is released (the
"observation points"), the chunks sent to the backend, and the backend
invocations.  The values the worker reads from the concurrently mutated
control flags (`stopped`, `paused`) are supplied by oracles
`stopObs`/`pausedObs : Nat → Bool` giving the flag value seen at the top
of each loop iteration, plus `stopAtEnd : Bool` for the read in the
finalize block.  Wall-clock timestamps and timestamped file names are
abstracted to constants.
-/

namespace Tajreba

/-! ## Output sanitizer (`sanitize_output` in both files, identical) -/

/-- Arabic-script code point, exactly the character classes of the
`arabic_runs` regex in `sanitize_output`:
`[؀-ۿݐ-ݿࢠ-ࣿﭐ-﷿ﹰ-﻿]`. -/
def isArabicChar (c : Char) : Bool :=
  (0x0600 ≤ c.toNat && c.toNat ≤ 0x06FF) ||
  (0x0750 ≤ c.toNat && c.toNat ≤ 0x077F) ||
  (0x08A0 ≤ c.toNat && c.toNat ≤ 0x08FF) ||
  (0xFB50 ≤ c.toNat && c.toNat ≤ 0xFDFF) ||
  (0xFE70 ≤ c.toNat && c.toNat ≤ 0xFEFF)

/-- Line-boundary characters recognized by Python `str.splitlines`. -/
def isLineBreak (c : Char) : Bool :=
  c.toNat = 0x0A || c.toNat = 0x0D || c.toNat = 0x0B || c.toNat = 0x0C ||
  c.toNat = 0x1C || c.toNat = 0x1D || c.toNat = 0x1E || c.toNat = 0x85 ||
  c.toNat = 0x2028 || c.toNat = 0x2029

/-- Whitespace characters stripped by Python `str.strip`. -/
def isPySpace (c : Char) : Bool :=
  c.toNat = 0x20 || (0x09 ≤ c.toNat && c.toNat ≤ 0x0D) ||
  (0x1C ≤ c.toNat && c.toNat ≤ 0x1F) ||
  c.toNat = 0x85 || c.toNat = 0xA0 || c.toNat = 0x1680 ||
  (0x2000 ≤ c.toNat && c.toNat ≤ 0x200A) ||
  c.toNat = 0x2028 || c.toNat = 0x2029 ||
  c.toNat = 0x202F || c.toNat = 0x205F || c.toNat = 0x3000

/-- Python `str.splitlines`: a `\r\n` pair is a single boundary, and a
trailing boundary does not produce a final empty line. -/
def splitlinesAux : List Char → List Char → List (List Char)
  | [], acc => if acc.isEmpty then [] else [acc.reverse]
  | '\r' :: '\n' :: rest, acc => acc.reverse :: splitlinesAux rest []
  | c :: rest, acc =>
    if isLineBreak c then acc.reverse :: splitlinesAux rest []
    else splitlinesAux rest (c :: acc)

def splitlines (s : List Char) : List (List Char) := splitlinesAux s []

/-- Python `str.strip()` on a character list. -/
def strip (s : List Char) : List Char :=
  ((s.dropWhile isPySpace).reverse.dropWhile isPySpace).reverse

/-- Word character for the `\b` boundaries of the `thought_pattern` regex.
Python `\w` is Unicode alphanumerics plus underscore; the blocks this
program ever sees are ASCII alphanumerics and Arabic script. -/
def isWordChar (c : Char) : Bool :=
  c.isAlphanum || c = '_' || isArabicChar c

/-- Alternatives of the regex
`\b(thought|thinking|reasoning|analysis|chain[- ]of[- ]thought)\b`,
in lowercase (the pattern is compiled with `re.IGNORECASE`). -/
def thoughtKeywords : List (List Char) :=
  ["thought".data, "thinking".data, "reasoning".data, "analysis".data,
   "chain of thought".data, "chain of-thought".data,
   "chain-of thought".data, "chain-of-thought".data]

/-- Case-insensitive match of `pat` as a prefix of `s`, followed by a word
boundary (end of line or a non-word character). -/
def matchKeyword (s : List Char) (pat : List Char) : Bool :=
  ((s.take pat.length).map Char.toLower == pat) &&
  (match s.drop pat.length with
   | [] => true
   | d :: _ => !isWordChar d)

/-- Scan implementing `thought_pattern.search(ln)`: some position with a
word boundary on the left starts a keyword match. -/
def thoughtSearchAux : Option Char → List Char → Bool
  | prev, [] =>
    match prev with
    | _ => false
  | prev, c :: rest =>
    ((match prev with
      | none => true
      | some p => !isWordChar p) &&
     thoughtKeywords.any (matchKeyword (c :: rest)))
    || thoughtSearchAux (some c) rest

def thoughtSearch (s : List Char) : Bool := thoughtSearchAux none s

/-- The exact-match boilerplate test
`ln.strip().lower() in ("thinking...", "thought for a moment", "thinking")`. -/
def isBoilerplateLine (ln : List Char) : Bool :=
  let t := (strip ln).map Char.toLower
  t == "thinking...".data || t == "thought for a moment".data ||
  t == "thinking".data

/-- The line-filtering pass of `sanitize_output`: keep the lines that
neither match `thought_pattern` nor are boilerplate. -/
def filteredLines (text : List Char) : List (List Char) :=
  (splitlines text).filter fun ln => !thoughtSearch ln && !isBoilerplateLine ln

/-- `cleaned = "\n".join(filtered).strip()` of `sanitize_output`. -/
def cleanedText (text : List Char) : List Char :=
  strip (List.intercalate ['\n'] (filteredLines text))

def dropTrailingNonArabic (s : List Char) : List Char :=
  (s.reverse.dropWhile fun c => !isArabicChar c).reverse

/-- Matches of the greedy regex `A+(?:N+A+)*` (`A` = Arabic class, `N` =
its complement) under `re.findall`.  `N+` matches any non-Arabic
characters, newlines included, so a match starting at the first Arabic
character greedily extends to the last Arabic character of the whole
string; the remainder contains no Arabic character, hence there is at
most one match: the span from the first to the last Arabic character. -/
def arabicRuns (s : List Char) : List (List Char) :=
  let rest := s.dropWhile fun c => !isArabicChar c
  if rest.isEmpty then [] else [dropTrailingNonArabic rest]

/-- `sanitize_output(text)` from `src/app.py` lines 75-107 (verbatim in
`src/Tajreba_app_llm_ar-en.py` lines 43-75): drop meta-commentary lines,
then return the Arabic span when one exists, the filtered text otherwise.
The `try/except` that returns the input on an internal failure has no
counterpart here because the embedding is a total function. -/
def sanitize_output (text : String) : String :=
  if text.data.isEmpty then text
  else
    let cleaned := cleanedText text.data
    let runs := arabicRuns cleaned
    if runs.isEmpty then String.mk cleaned
    else String.mk (strip (List.intercalate ['\n'] (runs.map strip)))

/-! ## Batch sizer (`calculate_optimal_batch_size`, identical in both) -/

/-- `calculate_optimal_batch_size` from `src/app.py` lines 128-146.  The
argument is the character count obtained from `read_text_from_file`;
`none` models the exception path, which falls back to 20000. -/
def calculate_optimal_batch_size (readChars : Option Nat) : Nat :=
  let total_chars := readChars.getD 20000
  if total_chars < 5000 then 1000
  else if total_chars < 50000 then 2000
  else if total_chars < 200000 then 3000
  else 4000

/-! ## Translation state and controller operations -/

/-- The fields of `TranslationState` shared by both front-ends
(`src/app.py` lines 244-262).  `start_time` is an abstract timestamp;
the Gradio file's extra prompt-option fields play no role in the claims
and are not modelled. -/
structure TranslationState where
  paused : Bool := false
  stopped : Bool := false
  running : Bool := false
  current_chunk : Nat := 0
  total_chunks : Nat := 0
  translated_chunks : List String := []
  live_feed : String := ""
  status_message : String := ""
  start_time : Option Nat := none
  error : Option String := none
  output_file : Option String := none
deriving Repr, DecidableEq

/-- `TranslationState.reset`: every field is reassigned its initial value
under the lock. -/
def reset (_s : TranslationState) : TranslationState := {}

/-- `/api/pause` handler `pause_translation` (`src/app.py` lines 428-432)
and the Gradio `pause_toggle`: flip the `paused` flag under the lock,
unconditionally. -/
def pause_translation (s : TranslationState) : TranslationState :=
  { s with paused := !s.paused }

/-- `/api/stop` handler `stop_translation` (`src/app.py` lines 434-439):
set `stopped`, clear `running`. -/
def stop_translation (s : TranslationState) : TranslationState :=
  { s with stopped := true, running := false }

/-- `/api/export` handler `export_file` (`src/app.py` lines 441-448): it
serves `state.output_file` when one has been generated and answers
"No output file generated yet." otherwise; it never consults
`translated_chunks`. -/
def export_file (s : TranslationState) : Except String String :=
  match s.output_file with
  | some f => Except.ok f
  | none => Except.error "No output file generated yet."

/-- Gradio `export_and_download` (`src/Tajreba_app_llm_ar-en.py` lines
536-548): with no accumulated chunks it fails, otherwise it writes the
joined chunk results to a timestamped file.  The success value is the
document text handed to `write_docx` (the path's timestamp is
abstracted away). -/
def export_and_download (s : TranslationState) : Except String String :=
  if s.translated_chunks.isEmpty then Except.error "❌ No translation to export"
  else Except.ok (String.intercalate "\n" s.translated_chunks)

/-! ## Backend client (`translate_with_ollama`) -/

/-- Outcome of the single `subprocess.run(["ollama", "run", model], ...)`
invocation in `src/app.py` lines 277-285.  `exn` covers every exception
(`TimeoutExpired` included, since `app.py` catches bare `Exception`);
`completed` carries the return code and captured streams. -/
inductive OllamaOutcome where
  | exn (msg : String)
  | completed (returncode : Int) (stdout stderr : String)
deriving Repr, DecidableEq

/-- `translate_with_ollama` from `src/app.py` lines 270-292: one backend
invocation, whose outcome is the argument; exceptions and non-zero exits
are rendered as error strings, success output is stripped and
sanitized.  No retry: the function consumes exactly one outcome. -/
def translate_with_ollama (o : OllamaOutcome) : String :=
  match o with
  | OllamaOutcome.exn e => "[Error: " ++ e ++ "]"
  | OllamaOutcome.completed rc out err =>
    if rc ≠ 0 then
      "[Error: " ++ (if err = "" then "Unknown error" else err) ++ "]"
    else sanitize_output (String.mk (strip out.data))

/-- Outcome type for the Gradio variant, which distinguishes
`subprocess.TimeoutExpired` from other exceptions. -/
inductive OllamaOutcomeGr where
  | timeout
  | exn (msg : String)
  | completed (returncode : Int) (stdout stderr : String)
deriving Repr, DecidableEq

/-- `translate_with_ollama` from `src/Tajreba_app_llm_ar-en.py` lines
343-367 (the post-invocation part; prompt assembly does not affect the
claims): timeout and exceptions become chunk-local strings, non-zero
exit renders stderr-or-stdout, success optionally passes through the
sanitizer and falls back to a no-output marker when empty. -/
def translate_with_ollama_gradio (filter_thoughts : Bool)
    (o : OllamaOutcomeGr) : String :=
  match o with
  | OllamaOutcomeGr.timeout => "⚠️ Translation timeout (5 minutes exceeded)"
  | OllamaOutcomeGr.exn e => "❌ Exception: " ++ e
  | OllamaOutcomeGr.completed rc out err =>
    if rc ≠ 0 then
      let o2 := if err = "" then out else err
      "❌ Error: " ++
        (if o2 = "" then "unknown error" else String.mk (strip o2.data))
    else
      let raw := String.mk (strip out.data)
      let raw := if filter_thoughts && raw ≠ "" then sanitize_output raw else raw
      if raw = "" then "⚠️ No output received from Ollama." else raw

/-! ## Pipeline worker (`worker_thread` in `src/app.py` lines 294-363,
`translation_worker` in the Gradio file — identical loop structure)

The worker is modelled as a recursion over the loop
`for i in range(0, total_chars, batch_size)`: iteration `k` works on
offset `i = k * batch_size`, and the iteration count is
`ceil(total_chars / batch_size)`.  `trace` records the shared state at
each release of `state.lock`; `calls` the iterations at which the
backend was invoked; `chunks` the chunk texts sent to it. -/

structure WorkerRun where
  trace : List TranslationState
  final : Option TranslationState
  calls : List Nat
  chunks : List (List Char)
deriving Repr, DecidableEq

/-- The finalize block (`src/app.py` lines 340-356): clear `running`;
when the `stopped` flag read there (`stopAtEnd`) is false, set the
completion message and generate the export file (timestamped name
abstracted to a constant; its content is the joined chunk results). -/
def finalizeWorker (stopAtEnd : Bool) (s : TranslationState) :
    TranslationState :=
  let s1 := { s with running := false, stopped := stopAtEnd }
  if stopAtEnd then s1
  else
    { s1 with
      status_message := "Translation complete.",
      output_file := some "translated.docx" }

/-- One pass of the processing loop, starting at iteration `k` with `r`
iterations left.  Each iteration: (1) under the lock, read the control
flags — on `stopped` set the stop message and break, on `paused` spin in
`time.sleep` *still inside the `with state.lock` block* (the code never
leaves the block, and nobody can mutate `paused` while the lock is held,
so the run deadlocks: `final = none`); (2) slice the chunk; (3) under
the lock, set the status message; (4) call the backend (no lock);
(5) under the lock, append the result, advance `current_chunk`, extend
`live_feed`. -/
def worker_loop (text : List Char) (B : Nat) (backend : Nat → OllamaOutcome)
    (stopObs pausedObs : Nat → Bool) (stopAtEnd : Bool) :
    Nat → Nat → TranslationState → WorkerRun
  | _k, 0, s =>
    let sf := finalizeWorker stopAtEnd s
    { trace := [sf], final := some sf, calls := [], chunks := [] }
  | k, r + 1, s =>
    let s1 := { s with stopped := stopObs k, paused := pausedObs k }
    if s1.stopped then
      let s2 := { s1 with status_message := "Translation stopped." }
      let sf := finalizeWorker stopAtEnd s2
      { trace := [s2, sf], final := some sf, calls := [], chunks := [] }
    else if s1.paused then
      { trace := [], final := none, calls := [], chunks := [] }
    else
      let chunk := (text.drop (k * B)).take B
      let chunk_num := k + 1
      let s2 := { s1 with
        status_message := "Translating chunk " ++ toString chunk_num ++
          "/" ++ toString s1.total_chunks ++ "..." }
      let translation := translate_with_ollama (backend k)
      let s3 := { s2 with
        translated_chunks := s2.translated_chunks ++ [translation],
        current_chunk := chunk_num,
        live_feed := s2.live_feed ++ translation ++ "\n\n" }
      let rest := worker_loop text B backend stopObs pausedObs stopAtEnd
        (k + 1) r s3
      { trace := s1 :: s2 :: s3 :: rest.trace,
        final := rest.final,
        calls := k :: rest.calls,
        chunks := chunk :: rest.chunks }

/-- The whole worker body: read the text, compute
`total_chunks = (total_chars + batch_size - 1) // batch_size`, publish
the initial job state under the lock, then run the loop and finalize. -/
def worker_thread (text : List Char) (B : Nat)
    (backend : Nat → OllamaOutcome) (stopObs pausedObs : Nat → Bool)
    (stopAtEnd : Bool) (s : TranslationState) : WorkerRun :=
  let total_chars := text.length
  let total_chunks := (total_chars + B - 1) / B
  let s0 := { s with
    running := true,
    total_chunks := total_chunks,
    current_chunk := 0,
    translated_chunks := [],
    live_feed := "",
    start_time := some 0 }
  let run := worker_loop text B backend stopObs pausedObs stopAtEnd 0
    total_chunks s0
  { run with trace := s0 :: run.trace }

/-! ## Concrete scenarios used by witnesses and counterexamples -/

/-- A mid-job state: one chunk result accumulated, no output file
generated yet (the worker writes `output_file` only in the finalize
block after a non-stopped run). -/
def midJobState : TranslationState :=
  { reset {} with running := true, translated_chunks := ["نص جزئي"] }

/-- The run demonstrating the pause deadlock: the pause flag reads true
at the top of the first iteration. -/
def pausedRun : WorkerRun :=
  worker_thread "ab".data 1 (fun _ => OllamaOutcome.completed 0 "ok" "")
    (fun _ => false) (fun _ => true) false (reset {})

/-- A run in which the stop flag reads true before any chunk is
processed. -/
def stopEarlyRun : WorkerRun :=
  worker_thread "abcdef".data 1000 (fun _ => OllamaOutcome.exn "e")
    (fun _ => true) (fun _ => false) true (reset {})

/-- A small two-chunk run with no stop and no pause. -/
def tinyRun : WorkerRun :=
  worker_thread "ab".data 1 (fun _ => OllamaOutcome.exn "x")
    (fun _ => false) (fun _ => false) false (reset {})

/-- The state `tinyRun` publishes at its first observation point (the
lock release after the job-initialization block). -/
def tinyObs : TranslationState :=
  { running := true, total_chunks := 2, start_time := some 0 }

/-! ## Helper lemmas -/

/-- Every branch of the batch sizer returns a positive chunk size. -/
theorem calc_batch_pos (o : Option Nat) : 0 < calculate_optimal_batch_size o := by
  unfold calculate_optimal_batch_size
  simp only []
  split_ifs <;> norm_num

/-- The integer formula `(L + B - 1) / B` used by the worker computes the
ceiling of `L / B`: the unique `N` with `L ≤ B * N < L + B`. -/
theorem ceil_div_bounds (B L : Nat) (hB : 0 < B) :
    L ≤ B * ((L + B - 1) / B) ∧ B * ((L + B - 1) / B) < L + B := by
  have h1 := Nat.div_add_mod (L + B - 1) B
  have h2 : (L + B - 1) % B < B := Nat.mod_lt _ hB
  generalize B * ((L + B - 1) / B) = x at h1 ⊢
  generalize (L + B - 1) % B = m at h1 h2
  omega

/-- The slices `T[k*B : k*B+B]` for `k < ceil(|T| / B)` concatenate back
to `T`: the chunking is gap-free and non-overlapping. -/
theorem slices_join (B : Nat) (hB : 0 < B) :
    ∀ t : List Char,
      ((List.range ((t.length + B - 1) / B)).map
        fun k => (t.drop (k * B)).take B).flatten = t := by
  suffices h : ∀ (n : Nat) (t : List Char), t.length ≤ n →
      ((List.range ((t.length + B - 1) / B)).map
        fun k => (t.drop (k * B)).take B).flatten = t by
    intro t; exact h t.length t le_rfl
  intro n
  induction n with
  | zero =>
    intro t ht
    have ht0 : t = [] := List.eq_nil_of_length_eq_zero (Nat.le_zero.mp ht)
    subst ht0
    have hN : (List.length ([] : List Char) + B - 1) / B = 0 :=
      Nat.div_eq_of_lt (by simp; omega)
    rw [hN]
    simp
  | succ n ih =>
    intro t ht
    by_cases ht0 : t = []
    · subst ht0
      have hN : (List.length ([] : List Char) + B - 1) / B = 0 :=
        Nat.div_eq_of_lt (by simp; omega)
      rw [hN]
      simp
    · have hL1 : 1 ≤ t.length := by
        cases t with
        | nil => exact absurd rfl ht0
        | cons c t2 => simp
      have hN : (t.length + B - 1) / B = (t.length - 1) / B + 1 := by
        have he : t.length + B - 1 = (t.length - 1) + B := by omega
        rw [he, Nat.add_div_right _ hB]
      rw [hN, List.range_succ_eq_map]
      simp only [List.map_cons, List.map_map, List.flatten_cons, Nat.zero_mul,
        List.drop_zero]
      have hdrop : ((List.range ((t.length - 1) / B)).map
            ((fun k => (t.drop (k * B)).take B) ∘ Nat.succ))
          = (List.range ((t.length - 1) / B)).map
            (fun k => ((t.drop B).drop (k * B)).take B) := by
        apply List.map_congr_left
        intro k _
        simp only [Function.comp]
        rw [List.drop_drop, Nat.succ_mul, Nat.add_comm (k * B) B]
      rw [hdrop]
      have hlen : (t.drop B).length ≤ n := by
        simp only [List.length_drop]
        omega
      have hNr : ((t.drop B).length + B - 1) / B = (t.length - 1) / B := by
        simp only [List.length_drop]
        by_cases hc : t.length ≤ B
        · have h0 : t.length - B = 0 := by omega
          rw [h0]
          have hz : (0 + B - 1) / B = 0 := Nat.div_eq_of_lt (by omega)
          have hz2 : (t.length - 1) / B = 0 := Nat.div_eq_of_lt (by omega)
          rw [hz, hz2]
        · have he : t.length - B + B - 1 = (t.length - 1 - B) + B := by omega
          rw [he, Nat.add_div_right _ hB]
          have he2 : t.length - 1 = (t.length - 1 - B) + B := by omega
          conv_rhs => rw [he2, Nat.add_div_right _ hB]
      have := ih (t.drop B) hlen
      rw [hNr] at this
      rw [this, List.take_append_drop]

/-- The finalize block never touches the chunk counters or the result
list, always clears `running`, and generates the export file exactly
when the `stopped` flag it reads is false. -/
theorem finalize_preserves (b : Bool) (s : TranslationState) :
    (finalizeWorker b s).translated_chunks = s.translated_chunks
    ∧ (finalizeWorker b s).current_chunk = s.current_chunk
    ∧ (finalizeWorker b s).total_chunks = s.total_chunks
    ∧ (finalizeWorker b s).running = false
    ∧ (finalizeWorker b s).output_file
        = (if b then s.output_file else some "translated.docx") := by
  cases b <;> simp [finalizeWorker]

/-- Behaviour of the processing loop when the stop flag, as observed at
the top of iteration `j`, reads true exactly from iteration `kstop` on,
and the pause flag always reads false.  Starting at iteration `k ≤ kstop`
with `r` iterations left, the loop invokes the backend exactly once per
iteration for the `min (kstop - k) r` iterations it runs, in increasing
order, sends exactly the source slices of those iterations, appends
exactly their translations to the result list in the same order, and
reaches the finalize block. -/
theorem worker_loop_run (text : List Char) (B : Nat)
    (backend : Nat → OllamaOutcome) (stopObs : Nat → Bool)
    (stopAtEnd : Bool) (kstop : Nat) :
    ∀ (r k : Nat) (s : TranslationState), k ≤ kstop →
      (∀ j, k ≤ j → j < k + r → stopObs j = decide (kstop ≤ j)) →
      (worker_loop text B backend stopObs (fun _ => false) stopAtEnd
          k r s).calls
        = List.range' k (min (kstop - k) r)
      ∧ (worker_loop text B backend stopObs (fun _ => false) stopAtEnd
          k r s).chunks
        = (List.range' k (min (kstop - k) r)).map
            (fun j => (text.drop (j * B)).take B)
      ∧ ∃ sf, (worker_loop text B backend stopObs (fun _ => false) stopAtEnd
            k r s).final = some sf
          ∧ sf.translated_chunks
              = s.translated_chunks
                ++ (List.range' k (min (kstop - k) r)).map
                  (fun j => translate_with_ollama (backend j))
          ∧ sf.total_chunks = s.total_chunks
          ∧ sf.running = false
          ∧ sf.output_file
              = (if stopAtEnd then s.output_file else some "translated.docx") := by
  intro r
  induction r with
  | zero =>
    intro k s _hk _hobs
    have hf := finalize_preserves stopAtEnd s
    simp only [worker_loop, Nat.min_zero, List.range'_zero, List.map_nil,
      List.append_nil]
    exact ⟨trivial, trivial, finalizeWorker stopAtEnd s, rfl,
      hf.1, hf.2.2.1, hf.2.2.2.1, hf.2.2.2.2⟩
  | succ r ih =>
    intro k s hk hobs
    have hobs0 : stopObs k = decide (kstop ≤ k) := hobs k le_rfl (by omega)
    by_cases hks : kstop ≤ k
    · -- the stop flag reads true: break, then finalize
      have hmin : min (kstop - k) (r + 1) = 0 := by omega
      have hstop : stopObs k = true := by rw [hobs0]; simp [hks]
      have hf := finalize_preserves stopAtEnd
        ({ s with
            stopped := true, paused := false,
            status_message := "Translation stopped." })
      simp only [hmin, List.range'_zero, List.map_nil, List.append_nil]
      simp [worker_loop, hstop]
      exact ⟨hf.1, hf.2.2.1, hf.2.2.2.1, hf.2.2.2.2⟩
    · -- the stop flag reads false: run the iteration and recurse
      have hstop : stopObs k = false := by rw [hobs0]; simp [hks]
      have hmin : min (kstop - k) (r + 1) = min (kstop - (k + 1)) r + 1 := by
        omega
      have hrange : List.range' k (min (kstop - k) (r + 1))
          = k :: List.range' (k + 1) (min (kstop - (k + 1)) r) := by
        rw [hmin, List.range'_succ]
      obtain ⟨hcalls, hchunks, sf, hfin, htc, htot, hrun, hout⟩ :=
        ih (k + 1)
          ({ s with
              stopped := false, paused := false,
              status_message := "Translating chunk " ++ toString (k + 1) ++
                "/" ++ toString s.total_chunks ++ "...",
              translated_chunks := s.translated_chunks
                ++ [translate_with_ollama (backend k)],
              current_chunk := k + 1,
              live_feed := s.live_feed
                ++ translate_with_ollama (backend k) ++ "\n\n" })
          (by omega)
          (fun j hj1 hj2 => hobs j (by omega) (by omega))
      rw [hrange]
      refine ⟨?_, ?_, sf, ?_, ?_, ?_, ?_, ?_⟩
      · simp [worker_loop, hstop]
        exact hcalls
      · simp [worker_loop, hstop]
        exact hchunks
      · simp [worker_loop, hstop]
        exact hfin
      · rw [htc]
        simp
      · simpa using htot
      · exact hrun
      · simpa using hout

/-- Loop invariant: if the state entering iteration `k` has `k` results
and `current_chunk = k`, then every state the loop publishes at a lock
release — whatever the flag oracles and the backend do — has exactly
`current_chunk` accumulated results, and so does the final state. -/
theorem worker_loop_inv (text : List Char) (B : Nat)
    (backend : Nat → OllamaOutcome) (stopObs pausedObs : Nat → Bool)
    (stopAtEnd : Bool) :
    ∀ (r k : Nat) (s : TranslationState),
      s.translated_chunks.length = s.current_chunk →
      s.current_chunk = k →
      (∀ st ∈ (worker_loop text B backend stopObs pausedObs stopAtEnd
          k r s).trace,
        st.translated_chunks.length = st.current_chunk)
      ∧ (∀ st, (worker_loop text B backend stopObs pausedObs stopAtEnd
          k r s).final = some st →
        st.translated_chunks.length = st.current_chunk) := by
  intro r
  induction r with
  | zero =>
    intro k s h1 _h2
    have hf := finalize_preserves stopAtEnd s
    constructor
    · intro st hst
      simp only [worker_loop, List.mem_singleton] at hst
      subst hst
      rw [hf.1, hf.2.1, h1]
    · intro st hst
      simp only [worker_loop, Option.some.injEq] at hst
      subst hst
      rw [hf.1, hf.2.1, h1]
  | succ r ih =>
    intro k s h1 h2
    have h1k : s.translated_chunks.length = k := by rw [h1, h2]
    by_cases hstop : stopObs k = true
    · have hf := finalize_preserves stopAtEnd
        ({ s with
            stopped := true, paused := pausedObs k,
            status_message := "Translation stopped." })
      constructor
      · intro st hst
        simp [worker_loop, hstop] at hst
        rcases hst with hst | hst <;> subst hst
        · simpa using h1
        · rw [hf.1, hf.2.1]; simpa using h1
      · intro st hst
        simp [worker_loop, hstop] at hst
        subst hst
        rw [hf.1, hf.2.1]; simpa using h1
    · by_cases hpause : pausedObs k = true
      · constructor
        · intro st hst
          simp [worker_loop, hstop, hpause] at hst
        · intro st hst
          simp [worker_loop, hstop, hpause] at hst
      · have hrec := ih (k + 1)
          ({ s with
              stopped := false, paused := false,
              status_message := "Translating chunk " ++ toString (k + 1) ++
                "/" ++ toString s.total_chunks ++ "...",
              translated_chunks := s.translated_chunks
                ++ [translate_with_ollama (backend k)],
              current_chunk := k + 1,
              live_feed := s.live_feed
                ++ translate_with_ollama (backend k) ++ "\n\n" })
          (by first | simpa using h1 | simpa using h1k)
          rfl
        constructor
        · intro st hst
          simp [worker_loop, hstop, hpause] at hst
          rcases hst with hst | hst | hst | hst
          · subst hst
            simpa using h1
          · subst hst
            simpa using h1
          · subst hst
            first | simpa using h1 | simpa using h1k
          · exact hrec.1 st (by simpa using hst)
        · intro st hst
          simp [worker_loop, hstop, hpause] at hst
          exact hrec.2 st (by simpa using hst)

/-! ## Claim theorems -/

/-- C2: for a document of length `L` the batch sizer returns 1000, 2000,
3000 or 4000 according to the fixed thresholds, and the worker publishes
`totalChunks = (L + B - 1) / B`, which is the ceiling `ceil(L / B)`
(characterized by `L ≤ B * N < L + B`); in particular a
100000-character document gets `B = 3000` and `totalChunks = 34`. -/
theorem batch_size_thresholds_and_chunk_count (text : List Char)
    (backend : Nat → OllamaOutcome) (stopObs pausedObs : Nat → Bool)
    (stopAtEnd : Bool) (s : TranslationState) :
    calculate_optimal_batch_size (some text.length)
      = (if text.length < 5000 then 1000
         else if text.length < 50000 then 2000
         else if text.length < 200000 then 3000
         else 4000)
    ∧ text.length ≤ calculate_optimal_batch_size (some text.length)
        * ((text.length + calculate_optimal_batch_size (some text.length) - 1)
            / calculate_optimal_batch_size (some text.length))
    ∧ calculate_optimal_batch_size (some text.length)
        * ((text.length + calculate_optimal_batch_size (some text.length) - 1)
            / calculate_optimal_batch_size (some text.length))
        < text.length + calculate_optimal_batch_size (some text.length)
    ∧ (worker_thread text (calculate_optimal_batch_size (some text.length))
          backend stopObs pausedObs stopAtEnd s).trace.head?.map
        TranslationState.total_chunks
      = some ((text.length + calculate_optimal_batch_size (some text.length) - 1)
          / calculate_optimal_batch_size (some text.length))
    ∧ calculate_optimal_batch_size (some 100000) = 3000
    ∧ (100000 + 3000 - 1) / 3000 = 34 := by
  have hB := calc_batch_pos (some text.length)
  have hc := ceil_div_bounds (calculate_optimal_batch_size (some text.length))
    text.length hB
  exact ⟨rfl, hc.1, hc.2, rfl, by norm_num [calculate_optimal_batch_size],
    by norm_num⟩

/-- C5: the sanitizer drops the line "thinking..." (it matches both the
whole-word meta-commentary pattern and the boilerplate list) and returns
exactly the Arabic run of the remaining text: on the input
"thinking...\nمرحبا بالعالم" it yields "مرحبا بالعالم". -/
theorem sanitize_drops_thinking_line_extracts_arabic :
    sanitize_output (String.mk ("thinking...".data ++ '\n' ::
        "مرحبا بالعالم".data))
      = "مرحبا بالعالم"
    ∧ thoughtSearch "thinking...".data = true
    ∧ isBoilerplateLine "thinking...".data = true
    ∧ arabicRuns (cleanedText ("thinking...".data ++ '\n' ::
        "مرحبا بالعالم".data))
      = ["مرحبا بالعالم".data] := by
  refine ⟨?_, ?_, ?_, ?_⟩ <;> decide

/-- C6: the sanitizer is a total function (the source wraps its body in a
catch-all returning the input, so no input raises), and whenever the
line-filtered text `cleaned` contains no Arabic-script run it is
returned verbatim; the empty string comes back unchanged. -/
theorem sanitize_verbatim_without_arabic (t : String) :
    (arabicRuns (cleanedText t.data) = [] →
      sanitize_output t = String.mk (cleanedText t.data))
    ∧ sanitize_output "" = "" := by
  constructor
  · intro h
    unfold sanitize_output
    by_cases he : t.data.isEmpty
    · have ht : t = "" := by
        cases t with
        | mk data =>
          cases data with
          | nil => rfl
          | cons c cs => simp at he
      subst ht
      simp
      decide
    · simp [he, h]
  · rfl

/-- C6 witness: on "no arabic here" the filtered text has no Arabic run
and the sanitizer returns it verbatim. -/
theorem sanitize_verbatim_without_arabic_witness :
    arabicRuns (cleanedText ("no arabic here").data) = []
    ∧ sanitize_output "no arabic here"
        = String.mk (cleanedText ("no arabic here").data) :=
  ⟨by decide, (sanitize_verbatim_without_arabic "no arabic here").1 (by decide)⟩

/-- C7 counterexample: the Flask export handler fails with its
no-output-file message on a state whose chunk-results sequence is
nonempty, refuting "fails with a nothing-to-export result exactly when
the chunk-results sequence is empty" for `export_file`, which never
assembles the accumulated results and only serves the completion
artifact. -/
theorem export_file_fails_despite_nonempty_results :
    midJobState.translated_chunks ≠ []
    ∧ export_file midJobState
        = Except.error "No output file generated yet." := by
  exact ⟨by decide, rfl⟩

/-- C7 amended: the Gradio export assembles the currently accumulated
chunk results at any time and fails exactly when the sequence is empty;
the Flask export serves only the completed artifact and fails exactly
when no output file has been generated, regardless of the accumulated
results.  After a stop observed before any chunk completed, both fail
(the worker has written no output file and accumulated no results). -/
theorem export_semantics (s : TranslationState) :
    (export_and_download s = Except.error "❌ No translation to export"
      ↔ s.translated_chunks = [])
    ∧ (s.translated_chunks ≠ [] →
        export_and_download s
          = Except.ok (String.intercalate "\n" s.translated_chunks))
    ∧ (export_file s = Except.error "No output file generated yet."
      ↔ s.output_file = none)
    ∧ (stopEarlyRun.final.map export_and_download
      = some (Except.error "❌ No translation to export"))
    ∧ (stopEarlyRun.final.map export_file
      = some (Except.error "No output file generated yet.")) := by
  refine ⟨?_, ?_, ?_, rfl, rfl⟩
  · rcases hl : s.translated_chunks with _ | ⟨a, l⟩ <;>
      simp [export_and_download, hl]
  · intro hne
    rcases hl : s.translated_chunks with _ | ⟨a, l⟩
    · exact absurd hl hne
    · simp [export_and_download, hl]
  · rcases ho : s.output_file with _ | f <;> simp [export_file, ho]

/-- C7 amended witness: with one accumulated chunk the Gradio export
succeeds and delivers the assembled text. -/
theorem export_semantics_witness :
    midJobState.translated_chunks ≠ []
    ∧ export_and_download midJobState = Except.ok "نص جزئي" :=
  ⟨by decide, (export_semantics midJobState).2.1 (by decide)⟩

/-- C9 counterexample: in the idle reset state (`running = false`, no
job active) a single pause call does change the system state — it flips
the `paused` flag — refuting "a single call has no effect on the system
when no job is active". -/
theorem pause_changes_idle_state :
    (reset {}).running = false
    ∧ pause_translation (reset {}) ≠ reset {}
    ∧ (pause_translation (reset {})).paused ≠ (reset {}).paused := by
  refine ⟨rfl, by decide, by decide⟩

/-- C9 amended: the pause toggle is an involution on the entire state —
two calls in immediate succession restore the state exactly — and a
single call always flips the `paused` flag and touches nothing else,
even when no job is active (the flip is then merely unobserved by any
worker and cleared by the next job's reset). -/
theorem pause_toggle_involution (s : TranslationState) :
    pause_translation (pause_translation s) = s
    ∧ (pause_translation s).paused = !s.paused
    ∧ (pause_translation s).running = s.running
    ∧ (pause_translation s).stopped = s.stopped
    ∧ (pause_translation s).translated_chunks = s.translated_chunks
    ∧ (pause_translation s).current_chunk = s.current_chunk
    ∧ (pause_translation s).output_file = s.output_file := by
  cases s
  simp [pause_translation]

/-- C10: the claim states the pause wait sleeps without holding the
state guard, but in both sources the `while paused: time.sleep(...)`
loop is lexically inside the `with state.lock:` block, so the worker
sleeps holding the lock; no other thread can acquire the lock to clear
`paused` (or read status), and the worker never leaves the block.  In
the embedding a pause observation therefore ends the run with no final
state, no backend call, and no further observation point after the
prologue. -/
theorem pause_wait_deadlocks_holding_lock :
    pausedRun.final = none
    ∧ pausedRun.calls = []
    ∧ pausedRun.chunks = []
    ∧ pausedRun.trace.length = 1 := by
  refine ⟨rfl, rfl, rfl, rfl⟩

/-- C1: whatever the flag oracles, the backend outcomes and the starting
state, every state the worker publishes at a lock release — and the
final state, if the loop terminates — has
`translated_chunks.length = current_chunk` (so the length in particular
never exceeds the index): the prologue zeroes both together, and each
chunk step appends one result and sets the index to the chunk ordinal
inside the same critical section.  After `reset` both are zero, and the
pause and stop commands touch neither field. -/
theorem chunk_results_length_matches_index (text : List Char) (B : Nat)
    (backend : Nat → OllamaOutcome) (stopObs pausedObs : Nat → Bool)
    (stopAtEnd : Bool) (s s2 : TranslationState) :
    (∀ st ∈ (worker_thread text B backend stopObs pausedObs stopAtEnd
        s).trace,
      st.translated_chunks.length = st.current_chunk)
    ∧ (∀ st, (worker_thread text B backend stopObs pausedObs stopAtEnd
        s).final = some st →
      st.translated_chunks.length = st.current_chunk)
    ∧ (reset s2).translated_chunks = []
    ∧ (reset s2).current_chunk = 0
    ∧ (pause_translation s2).translated_chunks = s2.translated_chunks
    ∧ (pause_translation s2).current_chunk = s2.current_chunk
    ∧ (stop_translation s2).translated_chunks = s2.translated_chunks
    ∧ (stop_translation s2).current_chunk = s2.current_chunk := by
  have hinv := worker_loop_inv text B backend stopObs pausedObs stopAtEnd
    ((text.length + B - 1) / B) 0
    ({ s with
        running := true,
        total_chunks := (text.length + B - 1) / B,
        current_chunk := 0,
        translated_chunks := [],
        live_feed := "",
        start_time := some 0 })
    rfl rfl
  refine ⟨?_, ?_, rfl, rfl, rfl, rfl, rfl, rfl⟩
  · intro st hst
    simp only [worker_thread, List.mem_cons] at hst
    rcases hst with hst | hst
    · subst hst; rfl
    · exact hinv.1 st hst
  · intro st hst
    simp only [worker_thread] at hst
    exact hinv.2 st hst

/-- C1 witness: the first observation point of a concrete two-chunk run
satisfies the invariant. -/
theorem chunk_results_length_matches_index_witness :
    tinyObs ∈ tinyRun.trace
    ∧ tinyObs.translated_chunks.length = tinyObs.current_chunk :=
  ⟨by decide,
   (chunk_results_length_matches_index "ab".data 1
      (fun _ => OllamaOutcome.exn "x") (fun _ => false) (fun _ => false)
      false (reset {}) (reset {})).1 tinyObs (by decide)⟩

/-- C3: with the batch size the code computes for the document, and no
stop or pause, the worker makes exactly one backend invocation per chunk
in order (no retries), reaches the finalize block whatever the outcomes
are, and stores for every chunk `k` exactly the string the backend
client renders for outcome `k` — for a failed chunk that is the error
text (exception or timeout text, or the non-zero-exit message), appended
as that chunk's result while the loop continues. -/
theorem backend_failures_recorded_and_job_continues (text : List Char)
    (backend : Nat → OllamaOutcome) (s : TranslationState) :
    (worker_thread text (calculate_optimal_batch_size (some text.length))
        backend (fun _ => false) (fun _ => false) false s).calls
      = List.range ((text.length
          + calculate_optimal_batch_size (some text.length) - 1)
          / calculate_optimal_batch_size (some text.length))
    ∧ (∃ sf, (worker_thread text
          (calculate_optimal_batch_size (some text.length)) backend
          (fun _ => false) (fun _ => false) false s).final = some sf
        ∧ sf.translated_chunks
            = (List.range ((text.length
                + calculate_optimal_batch_size (some text.length) - 1)
                / calculate_optimal_batch_size (some text.length))).map
              (fun k => translate_with_ollama (backend k))
        ∧ sf.running = false)
    ∧ (∀ e, translate_with_ollama (OllamaOutcome.exn e)
        = "[Error: " ++ e ++ "]")
    ∧ (∀ out err, translate_with_ollama (OllamaOutcome.completed 1 out err)
        = "[Error: " ++ (if err = "" then "Unknown error" else err) ++ "]")
    ∧ translate_with_ollama_gradio true OllamaOutcomeGr.timeout
        = "⚠️ Translation timeout (5 minutes exceeded)"
    ∧ (∀ e, translate_with_ollama_gradio true (OllamaOutcomeGr.exn e)
        = "❌ Exception: " ++ e) := by
  obtain ⟨hcalls, hchunks, sf, hfin, htc, _htot, hrun, _hout⟩ :=
    worker_loop_run text (calculate_optimal_batch_size (some text.length))
      backend (fun _ => false) false
      ((text.length + calculate_optimal_batch_size (some text.length) - 1)
        / calculate_optimal_batch_size (some text.length))
      ((text.length + calculate_optimal_batch_size (some text.length) - 1)
        / calculate_optimal_batch_size (some text.length))
      0
      ({ s with
          running := true,
          total_chunks := (text.length
            + calculate_optimal_batch_size (some text.length) - 1)
            / calculate_optimal_batch_size (some text.length),
          current_chunk := 0,
          translated_chunks := [],
          live_feed := "",
          start_time := some 0 })
      (Nat.zero_le _)
      (by intro j hj1 hj2; simp; omega)
  refine ⟨?_, ⟨sf, ?_, ?_, hrun⟩, fun e => rfl, fun out err => rfl, rfl,
    fun e => rfl⟩
  · simp only [worker_thread]
    rw [hcalls]
    simp [List.range_eq_range']
  · simp only [worker_thread]
    exact hfin
  · rw [htc]
    simp [List.range_eq_range']

/-- C4: for any positive chunk size `B` and any backend outcomes, a run
with no stop and no pause sends to the backend exactly the slices
`T[k*B : k*B+B]` for `k < ceil(L/B)`, in source order; those slices are
gap-free and non-overlapping — their concatenation is the source text —
and the final result list holds chunk `k`'s translation at position `k`
with no gaps or reordering. -/
theorem chunks_partition_source_and_results_ordered (text : List Char)
    (B : Nat) (backend : Nat → OllamaOutcome) (s : TranslationState)
    (hB : 0 < B) :
    (worker_thread text B backend (fun _ => false) (fun _ => false) false
        s).chunks
      = (List.range ((text.length + B - 1) / B)).map
          (fun k => (text.drop (k * B)).take B)
    ∧ (worker_thread text B backend (fun _ => false) (fun _ => false) false
        s).chunks.flatten = text
    ∧ (∃ sf, (worker_thread text B backend (fun _ => false)
          (fun _ => false) false s).final = some sf
        ∧ sf.translated_chunks
            = (List.range ((text.length + B - 1) / B)).map
                (fun k => translate_with_ollama (backend k))) := by
  obtain ⟨hcalls, hchunks, sf, hfin, htc, _htot, _hrun, _hout⟩ :=
    worker_loop_run text B backend (fun _ => false) false
      ((text.length + B - 1) / B) ((text.length + B - 1) / B) 0
      ({ s with
          running := true,
          total_chunks := (text.length + B - 1) / B,
          current_chunk := 0,
          translated_chunks := [],
          live_feed := "",
          start_time := some 0 })
      (Nat.zero_le _)
      (by intro j hj1 hj2; simp; omega)
  have hch : (worker_thread text B backend (fun _ => false)
      (fun _ => false) false s).chunks
      = (List.range ((text.length + B - 1) / B)).map
          (fun k => (text.drop (k * B)).take B) := by
    simp only [worker_thread]
    rw [hchunks]
    simp [List.range_eq_range']
  refine ⟨hch, ?_, sf, ?_, ?_⟩
  · rw [hch]
    exact slices_join B hB text
  · simp only [worker_thread]
    exact hfin
  · rw [htc]
    simp [List.range_eq_range']

/-- C4 witness: a three-character text with chunk size 2 is cut into the
two slices "ab" and "c", whose concatenation is the text. -/
theorem chunks_partition_source_and_results_ordered_witness :
    0 < 2
    ∧ (worker_thread "abc".data 2 (fun _ => OllamaOutcome.exn "x")
        (fun _ => false) (fun _ => false) false (reset {})).chunks.flatten
      = "abc".data :=
  ⟨by decide,
   (chunks_partition_source_and_results_ordered "abc".data 2
      (fun _ => OllamaOutcome.exn "x") (reset {}) (by decide)).2.1⟩

/-- C8: the stop command sets the latch, pause never alters it, and only
reset clears it.  Modelling a stop request arriving so that the worker's
per-iteration reads of `stopped` are false before iteration `k` and true
from iteration `k` on (the one-way latch), a job started from a reset
state processes exactly the first `min k N` chunks: the backend is
invoked once per processed chunk and never after the stop is observed,
the partial results accumulated before the stop are retained in the
final state, and no output artifact is written. -/
theorem stop_latch_halts_without_artifact (text : List Char) (B : Nat)
    (backend : Nat → OllamaOutcome) (k : Nat) (s0 s : TranslationState) :
    (stop_translation s).stopped = true
    ∧ (pause_translation s).stopped = s.stopped
    ∧ (reset s).stopped = false
    ∧ (worker_thread text B backend (fun j => decide (k ≤ j))
        (fun _ => false) true (reset s0)).calls
      = List.range (min k ((text.length + B - 1) / B))
    ∧ (∃ sf, (worker_thread text B backend (fun j => decide (k ≤ j))
          (fun _ => false) true (reset s0)).final = some sf
        ∧ sf.translated_chunks
            = (List.range (min k ((text.length + B - 1) / B))).map
                (fun j => translate_with_ollama (backend j))
        ∧ sf.output_file = none
        ∧ sf.running = false) := by
  obtain ⟨hcalls, _hchunks, sf, hfin, htc, _htot, hrun, hout⟩ :=
    worker_loop_run text B backend (fun j => decide (k ≤ j)) true k
      ((text.length + B - 1) / B) 0
      ({ reset s0 with
          running := true,
          total_chunks := (text.length + B - 1) / B,
          current_chunk := 0,
          translated_chunks := [],
          live_feed := "",
          start_time := some 0 })
      (Nat.zero_le _)
      (fun j _ _ => rfl)
  refine ⟨rfl, rfl, rfl, ?_, sf, ?_, ?_, ?_, hrun⟩
  · simp only [worker_thread]
    rw [hcalls]
    simp [List.range_eq_range']
  · simp only [worker_thread]
    exact hfin
  · rw [htc]
    simp [List.range_eq_range']
  · rw [hout]
    simp [reset]

end Tajreba
